import Mathlib

/-!
Verification development for the differentiable-dynamics core of
`jyf588/nimblephysics`, covering the real-time system-identification loop
(`dart/realtime/SSID.cpp`) and the constraint-aware backpropagation
assembler (`BackpropSnapshot`, excerpted in `dart/dynamics/Skeleton.hpp`).

Numeric values carried by Eigen vectors/matrices (C++ `double`) are modelled
as rationals `ℚ`; Eigen dynamic vectors become `List ℚ`, and the
dimension-checked matrices of the Jacobian layer become Mathlib
`Matrix (Fin m) (Fin n) ℚ`.  Eigen decompositions
(`completeOrthogonalDecomposition().pseudoInverse()` and the
least-squares `solve`) are external library calls and are modelled as
abstract function parameters.  A failed Eigen runtime assertion
(out-of-range `segment` write, `assert(...)` in the source) is modelled
as `Option.none`.
-/

/-! ## Real-time SSID loop (`dart/realtime/SSID.cpp`) -/

/-- State of one `SSID` object, restricted to the fields the verified
operations read or write: the `mRunning` flag, counters recording how many
worker threads have been spawned (`mOptimizationThread = std::thread(...)`)
and how many joins have happened (`mOptimizationThread.join()`), the world
DOF count, and the pluggable `mInitialPosEstimator` taking the resampled
sensor-history matrix and a timestamp. -/
structure SSID where
  running : Bool
  threadsSpawned : ℕ
  joins : ℕ
  worldDofs : ℕ
  initialPosEstimator : List (List ℚ) → ℤ → List ℚ

/-- The `SSID::SSID` constructor: `mRunning(false)`, no thread spawned yet,
and the default `mInitialPosEstimator` that ignores both arguments and
returns `Eigen::VectorXs::Zero(dofs)` with `dofs = world->getNumDofs()`. -/
def SSID.construct (worldDofs : ℕ) : SSID :=
  { running := false
    threadsSpawned := 0
    joins := 0
    worldDofs := worldDofs
    initialPosEstimator := fun _ _ => List.replicate worldDofs 0 }

/-- `SSID::setInitialPosEstimator`: replaces `mInitialPosEstimator`. -/
def SSID.setInitialPosEstimator
    (s : SSID) (f : List (List ℚ) → ℤ → List ℚ) : SSID :=
  { s with initialPosEstimator := f }

/-- `SSID::start`: `if (mRunning) return;` then sets `mRunning = true` and
spawns the worker thread. -/
def SSID.start (s : SSID) : SSID :=
  if s.running then s
  else { s with running := true, threadsSpawned := s.threadsSpawned + 1 }

/-- `SSID::stop`: `if (!mRunning) return;` then sets `mRunning = false` and
joins the worker thread. -/
def SSID.stop (s : SSID) : SSID :=
  if !s.running then s
  else { s with running := false, joins := s.joins + 1 }

/-- The mutations `SSID::runInference` performs on the trajectory problem:
per-step pinned forces (`mProblem->pinForce(i, forceHistory.col(i))`),
the two metadata matrices, and the start position passed to
`mProblem->setStartPos`. -/
structure InferenceEffects where
  pinnedForces : List (List ℚ)
  metadataForces : List (List ℚ)
  metadataSensors : List (List ℚ)
  startPos : List ℚ

/-- `SSID::runInference`, restricted to its problem mutations.
`forceHistory` and `sensorHistory` stand for the matrices returned by
`mControlLog.getValues` / `mSensorLog.getValues` (the `VectorLog` resampler
is an external collaborator here, so the histories are taken as inputs);
`startTime` is the timestamp of the cycle.  The start position is
`mInitialPosEstimator(sensorHistory, startTime)`. -/
def SSID.runInference (s : SSID) (forceHistory sensorHistory : List (List ℚ))
    (startTime : ℤ) : InferenceEffects :=
  { pinnedForces := forceHistory
    metadataForces := forceHistory
    metadataSensors := sensorHistory
    startPos := s.initialPosEstimator sensorHistory startTime }

/-- What one iteration of the `while (mRunning)` body of
`SSID::optimizationThreadLoop` does after reading the clock. -/
inductive SSIDLoopAction where
  | runsInference
  | spins
deriving DecidableEq

/-- One iteration of `SSID::optimizationThreadLoop`:
`if (mControlLog.availableHistoryBefore(startTime) > mPlanningHistoryMillis)`
run an inference cycle, otherwise fall through to the next loop check.
`availableHistory` stands for the value returned by
`mControlLog.availableHistoryBefore(startTime)`. -/
def optimizationThreadIteration
    (availableHistory planningHistoryMillis : ℤ) : SSIDLoopAction :=
  if availableHistory > planningHistoryMillis then SSIDLoopAction.runsInference
  else SSIDLoopAction.spins

/-! ## Vector assembly (`BackpropSnapshot::assembleVector` /
`getVectorToAssemble`, `dart/dynamics/Skeleton.hpp`) -/

/-- The `VectorToAssemble` enum selecting which per-group vector
`BackpropSnapshot::assembleVector` stacks. -/
inductive VectorToAssemble where
  | BOUNCE_DIAGONALS
  | RESTITUTION_DIAGONALS
  | CONTACT_CONSTRAINT_IMPULSES
  | CONTACT_CONSTRAINT_MAPPINGS
deriving DecidableEq

/-- One `ConstrainedGroupGradientMatrices` constraint group, restricted to
the vector accessors read by `getVectorToAssemble`: bounce diagonals,
restitution diagonals, contact-constraint impulses (real-valued), and the
integer contact-constraint mappings. -/
structure ConstrainedGroupGradientMatrices where
  bounceDiagonals : List ℚ
  restitutionDiagonals : List ℚ
  contactConstraintImpulses : List ℚ
  contactConstraintMappings : List ℤ

/-- The `Eigen::VectorXd` specialization of
`BackpropSnapshot::getVectorToAssemble`: dispatches the three real-valued
kinds to the group's accessor and hits
`assert(whichVector != VectorToAssemble::CONTACT_CONSTRAINT_MAPPINGS)` on
the remaining kind (modelled as `none`). -/
def getVectorToAssembleReal (matrices : ConstrainedGroupGradientMatrices) :
    VectorToAssemble → Option (List ℚ)
  | VectorToAssemble.BOUNCE_DIAGONALS => some matrices.bounceDiagonals
  | VectorToAssemble.RESTITUTION_DIAGONALS =>
      some matrices.restitutionDiagonals
  | VectorToAssemble.CONTACT_CONSTRAINT_IMPULSES =>
      some matrices.contactConstraintImpulses
  | VectorToAssemble.CONTACT_CONSTRAINT_MAPPINGS => none

/-- The `Eigen::VectorXi` specialization of
`BackpropSnapshot::getVectorToAssemble`: asserts
`whichVector == VectorToAssemble::CONTACT_CONSTRAINT_MAPPINGS` (failure
modelled as `none`) and returns the group's mapping vector. -/
def getVectorToAssembleInt (matrices : ConstrainedGroupGradientMatrices) :
    VectorToAssemble → Option (List ℤ)
  | VectorToAssemble.CONTACT_CONSTRAINT_MAPPINGS =>
      some matrices.contactConstraintMappings
  | _ => none

/-- Eigen `collected.segment(cursor, vec.size()) = vec` on a buffer `buf`:
in-bounds writes replace `v.length` entries starting at `cursor`; an
out-of-range segment is an Eigen runtime assertion failure (`none`). -/
def writeSegment (buf : List ℚ) (cursor : ℕ) (v : List ℚ) :
    Option (List ℚ) :=
  if cursor + v.length ≤ buf.length then
    some (buf.take cursor ++ v ++ buf.drop (cursor + v.length))
  else none

/-- The size loop of `BackpropSnapshot::assembleVector` (multi-group path):
`for (i = 0; i < mGradientMatrices.size(); i++) size +=
getVectorToAssemble(mGradientMatrices[0], whichVector).size();` — note the
source reads group `[0]` in every iteration, so the total is the group
count times the FIRST group's vector length. -/
def assembleVectorSizeLoop (groups : List ConstrainedGroupGradientMatrices)
    (whichVector : VectorToAssemble) : Option ℕ :=
  match groups with
  | [] => some 0
  | g0 :: _ => do
      let v0 ← getVectorToAssembleReal g0 whichVector
      pure (groups.length * v0.length)

/-- The copy loop of `BackpropSnapshot::assembleVector`: for each group,
fetch its vector and write it into the collected buffer at the running
cursor, then advance the cursor by that vector's length. -/
def assembleVectorCopyLoop : List ConstrainedGroupGradientMatrices →
    VectorToAssemble → List ℚ → ℕ → Option (List ℚ)
  | [], _, buf, _ => some buf
  | g :: rest, whichVector, buf, cursor => do
      let v ← getVectorToAssembleReal g whichVector
      let buf2 ← writeSegment buf cursor v
      assembleVectorCopyLoop rest whichVector buf2 (cursor + v.length)

/-- The `Eigen::VectorXd` instantiation of
`BackpropSnapshot::assembleVector`: with exactly one constraint group it
returns that group's vector directly; otherwise it allocates a buffer of
the size computed by the size loop and runs the copy loop from cursor 0. -/
def assembleVectorReal (groups : List ConstrainedGroupGradientMatrices)
    (whichVector : VectorToAssemble) : Option (List ℚ) :=
  match groups with
  | [g] => getVectorToAssembleReal g whichVector
  | _ => do
      let size ← assembleVectorSizeLoop groups whichVector
      assembleVectorCopyLoop groups whichVector
        (List.replicate size 0) 0

/-- The concatenation the spec describes: each group's vector of the
requested kind, stacked in group-processing order. -/
def specAssembledConcat (groups : List ConstrainedGroupGradientMatrices)
    (whichVector : VectorToAssemble) : List ℚ :=
  groups.flatMap fun g => (getVectorToAssembleReal g whichVector).getD []

/-- Two concrete constraint groups whose bounce-diagonal vectors have
different lengths (2 and 1). -/
def cggmExampleA : ConstrainedGroupGradientMatrices :=
  { bounceDiagonals := [1, 2]
    restitutionDiagonals := []
    contactConstraintImpulses := []
    contactConstraintMappings := [] }

/-- Second concrete constraint group, with a single bounce diagonal. -/
def cggmExampleB : ConstrainedGroupGradientMatrices :=
  { bounceDiagonals := [3]
    restitutionDiagonals := []
    contactConstraintImpulses := []
    contactConstraintMappings := [] }

/-! ## Jacobian layer (`BackpropSnapshot` Jacobian accessors,
`dart/dynamics/Skeleton.hpp`) -/

/-- The Eigen decomposition routines the Jacobian accessors call, modelled
as abstract total functions since Eigen is an external library: `pinv` is
`completeOrthogonalDecomposition().pseudoInverse()` (total even on
singular, non-square or empty inputs), and `bounceSolve` stands for the
construction and complete-orthogonal-decomposition solve of the stacked
outer-product least-squares system in the nonzero-bounce branch of
`BackpropSnapshot::getPosPosJacobian`, taking the bouncing constraint
matrix and the restitution diagonals. -/
structure EigenOps where
  pinv : (m n : ℕ) → Matrix (Fin m) (Fin n) ℚ → Matrix (Fin n) (Fin m) ℚ
  bounceSolve : (n b : ℕ) → Matrix (Fin n) (Fin b) ℚ → (Fin b → ℚ) →
    Matrix (Fin n) (Fin n) ℚ

/-- One `BackpropSnapshot` as the Jacobian accessors see it: the world DOF
count `mNumDOFs`, the totals `mNumClamping` / `mNumUpperBound` /
`mNumBouncing`, the timestep `mTimeStep`, and the world-indexed matrices
produced by the assembly accessors (`getClampingConstraintMatrix`,
`getMassedClampingConstraintMatrix`, `getUpperBoundConstraintMatrix`,
`getMassedUpperBoundConstraintMatrix`, `getBouncingConstraintMatrix`,
`getUpperBoundMappingMatrix`, `getBounceDiagonals`,
`getRestitutionDiagonals`, `getInvMassMatrix`). -/
structure BackpropSnapshot where
  numDOFs : ℕ
  numClamping : ℕ
  numUpperBound : ℕ
  numBouncing : ℕ
  timeStep : ℚ
  clampingConstraintMatrix : Matrix (Fin numDOFs) (Fin numClamping) ℚ
  massedClampingConstraintMatrix : Matrix (Fin numDOFs) (Fin numClamping) ℚ
  upperBoundConstraintMatrix : Matrix (Fin numDOFs) (Fin numUpperBound) ℚ
  massedUpperBoundConstraintMatrix :
    Matrix (Fin numDOFs) (Fin numUpperBound) ℚ
  bouncingConstraintMatrix : Matrix (Fin numDOFs) (Fin numBouncing) ℚ
  upperBoundMappingMatrix : Matrix (Fin numUpperBound) (Fin numClamping) ℚ
  bounceDiagonals : Fin numClamping → ℚ
  restitutionDiagonals : Fin numBouncing → ℚ
  invMassMatrix : Matrix (Fin numDOFs) (Fin numDOFs) ℚ

/-- `BackpropSnapshot::getProjectionIntoClampsMatrix`:
`constraintForceToImpliedTorques = V_c + V_ub * E`;
`forceToVel = A_cᵗ * constraintForceToImpliedTorques`;
`velToForce = forceToVel.completeOrthogonalDecomposition().pseudoInverse()`;
`bounce = getBounceDiagonals().asDiagonal()`; result
`(1.0 / mTimeStep) * velToForce * bounce * A_cᵗ`. -/
def getProjectionIntoClampsMatrix (ops : EigenOps) (s : BackpropSnapshot) :
    Matrix (Fin s.numClamping) (Fin s.numDOFs) ℚ :=
  let constraintForceToImpliedTorques :=
    s.massedClampingConstraintMatrix
      + s.massedUpperBoundConstraintMatrix * s.upperBoundMappingMatrix
  let forceToVel :=
    s.clampingConstraintMatrix.transpose * constraintForceToImpliedTorques
  let velToForce := ops.pinv s.numClamping s.numClamping forceToVel
  let bounce := Matrix.diagonal s.bounceDiagonals
  (1 / s.timeStep) • velToForce * bounce * s.clampingConstraintMatrix.transpose

/-- `BackpropSnapshot::getForceVelJacobian`: with
`A_ub.size() > 0 && E.size() > 0` (an Eigen matrix's `size()` is rows times
columns) the result is
`mTimeStep * Minv * (I - mTimeStep * (A_c + A_ub * E) * P_c * Minv)`,
otherwise the `A_ub * E` term is dropped. -/
def getForceVelJacobian (ops : EigenOps) (s : BackpropSnapshot) :
    Matrix (Fin s.numDOFs) (Fin s.numDOFs) ℚ :=
  let A_c := s.clampingConstraintMatrix
  let A_ub := s.upperBoundConstraintMatrix
  let E := s.upperBoundMappingMatrix
  let P_c := getProjectionIntoClampsMatrix ops s
  let Minv := s.invMassMatrix
  if s.numDOFs * s.numUpperBound ≠ 0 ∧ s.numUpperBound * s.numClamping ≠ 0
  then
    s.timeStep • (Minv * (1 - s.timeStep • ((A_c + A_ub * E) * P_c * Minv)))
  else
    s.timeStep • (Minv * (1 - s.timeStep • (A_c * P_c * Minv)))

/-- `BackpropSnapshot::getPosPosJacobian`: if `A_b.size() == 0` (rows times
columns) return the identity; otherwise build the stacked outer-product
system over the bouncing matrix's columns, center it on the identity, and
solve it in the least-squares sense via a complete orthogonal
decomposition (the construction-and-solve is the abstract `bounceSolve`,
fed the bouncing matrix and the restitution diagonals it reads). -/
def getPosPosJacobian (ops : EigenOps) (s : BackpropSnapshot) :
    Matrix (Fin s.numDOFs) (Fin s.numDOFs) ℚ :=
  if s.numDOFs * s.numBouncing = 0 then 1
  else
    ops.bounceSolve s.numDOFs s.numBouncing s.bouncingConstraintMatrix
      s.restitutionDiagonals

/-! ## Block-diagonal world mass matrices
(`BackpropSnapshot::getMassMatrix` / `getInvMassMatrix`) -/

/-- One skeleton as seen by the world mass-matrix assembly: its DOF count
(`skel->getNumDofs()`) and its own mass and inverse mass matrices
(`skel->getMassMatrix()` / `skel->getInvMassMatrix()`), given as entry
functions (entries at indices at or beyond the DOF count are never read). -/
structure SkeletonBlock where
  numDofs : ℕ
  massMatrix : ℕ → ℕ → ℚ
  invMassMatrix : ℕ → ℕ → ℚ

/-- The block-placement loop shared by `BackpropSnapshot::getMassMatrix`
and `getInvMassMatrix`: a zero world matrix receives each skeleton's square
block at the running cursor (`matrix.block(cursor, cursor, skelDOF,
skelDOF) = ...`), the cursor advancing by that skeleton's DOF count; reads
outside every block see the zero initialization. -/
def assembleBlockDiagonal (f : SkeletonBlock → ℕ → ℕ → ℚ) :
    List SkeletonBlock → ℕ → ℕ → ℚ
  | [], _, _ => 0
  | skel :: rest, r, c =>
    if r < skel.numDofs then
      if c < skel.numDofs then f skel r c else 0
    else
      if c < skel.numDofs then 0
      else assembleBlockDiagonal f rest (r - skel.numDofs) (c - skel.numDofs)

/-- `BackpropSnapshot::getMassMatrix`: the world mass matrix assembled from
the per-skeleton mass matrices. -/
def worldMassMatrix (skeletons : List SkeletonBlock) : ℕ → ℕ → ℚ :=
  assembleBlockDiagonal (fun skel => skel.massMatrix) skeletons

/-- `BackpropSnapshot::getInvMassMatrix`: the world inverse mass matrix
assembled from the per-skeleton inverse mass matrices. -/
def worldInvMassMatrix (skeletons : List SkeletonBlock) : ℕ → ℕ → ℚ :=
  assembleBlockDiagonal (fun skel => skel.invMassMatrix) skeletons

/-- The world DOF offset of skeleton `i`: the sum of the DOF counts of the
skeletons before it in the skeleton list (the cursor value when its block
is copied). -/
def skeletonOffset : List SkeletonBlock → ℕ → ℕ
  | _, 0 => 0
  | [], _ + 1 => 0
  | skel :: rest, i + 1 => skel.numDofs + skeletonOffset rest i

/-- Two concrete skeleton blocks (one and two DOFs) for instantiating the
block-diagonal facts. -/
def skeletonBlockExampleA : SkeletonBlock :=
  { numDofs := 1
    massMatrix := fun _ _ => 2
    invMassMatrix := fun _ _ => 1 / 2 }

/-- Second concrete skeleton block. -/
def skeletonBlockExampleB : SkeletonBlock :=
  { numDofs := 2
    massMatrix := fun r c => if r = c then 3 else 1
    invMassMatrix := fun r c => if r = c then 5 else 7 }

/-! ## Concrete Jacobian-layer instances -/

/-- Concrete stand-in for the Eigen decompositions: the pseudo-inverse is
instantiated as the transpose and the bounce least-squares solve as the
identity matrix (any total functions are acceptable to the theorems, which
hold for every `EigenOps`). -/
def eigenOpsExample : EigenOps :=
  { pinv := fun _ _ M => M.transpose
    bounceSolve := fun _ _ _ _ => 1 }

/-- A one-DOF snapshot with zero active constraint groups: all clamping,
upper-bound and bouncing counts are zero, `mTimeStep = 1/2`, and the world
inverse mass matrix is the 1×1 matrix `[4]`. -/
def snapshotNoConstraints : BackpropSnapshot :=
  { numDOFs := 1
    numClamping := 0
    numUpperBound := 0
    numBouncing := 0
    timeStep := 1 / 2
    clampingConstraintMatrix := 0
    massedClampingConstraintMatrix := 0
    upperBoundConstraintMatrix := 0
    massedUpperBoundConstraintMatrix := 0
    bouncingConstraintMatrix := 0
    upperBoundMappingMatrix := 0
    bounceDiagonals := 0
    restitutionDiagonals := 0
    invMassMatrix := !![4] }

/-- A one-DOF snapshot with one clamping contact, no upper-bound contacts
and no bouncing contacts. -/
def snapshotWithClamping : BackpropSnapshot :=
  { numDOFs := 1
    numClamping := 1
    numUpperBound := 0
    numBouncing := 0
    timeStep := 1
    clampingConstraintMatrix := !![2]
    massedClampingConstraintMatrix := !![3]
    upperBoundConstraintMatrix := 0
    massedUpperBoundConstraintMatrix := 0
    bouncingConstraintMatrix := 0
    upperBoundMappingMatrix := 0
    bounceDiagonals := fun _ => 1
    restitutionDiagonals := 0
    invMassMatrix := !![1] }

/-! ## Theorems -/

/-- Claim C2, as stated, is false: when the available control history equals
`planningHistoryMillis` exactly (here both are 100), the loop iteration does
not run an inference cycle, because the source comparison is strict
(`availableHistoryBefore(startTime) > mPlanningHistoryMillis`). -/
theorem c2_counterexample :
    (100 : ℤ) ≥ 100 ∧
      optimizationThreadIteration 100 100 = SSIDLoopAction.spins := by
  constructor
  · exact le_refl 100
  · rfl

/-- Claim C2 (amended): in every iteration of the SSID worker loop, an
inference cycle is run if and only if the contiguous control history
available before the current time is strictly greater than
`planningHistoryMillis`; at exact equality the cycle does not run. -/
theorem c2_inference_iff_strict_history
    (availableHistory planningHistoryMillis : ℤ) :
    optimizationThreadIteration availableHistory planningHistoryMillis
        = SSIDLoopAction.runsInference
      ↔ planningHistoryMillis < availableHistory := by
  by_cases h : planningHistoryMillis < availableHistory <;>
    simp [optimizationThreadIteration, h]

/-- Claim C7: `start()` on an already-running SSID leaves the state (running
flag, spawned-thread count, everything else) unchanged; `stop()` on a
non-running SSID is the identity (no join, no state change); consequently
both operations are idempotent, and starting twice from a freshly
constructed SSID spawns exactly one worker thread. -/
theorem c7_start_stop_idempotent (s : SSID) (d : ℕ) :
    (s.running = true → s.start = s)
      ∧ (s.running = false → s.stop = s)
      ∧ s.start.start = s.start
      ∧ s.stop.stop = s.stop
      ∧ ((SSID.construct d).start.start).threadsSpawned = 1 := by
  refine ⟨?_, ?_, ?_, ?_, ?_⟩
  · intro h
    simp [SSID.start, h]
  · intro h
    simp [SSID.stop, h]
  · by_cases h : s.running = true <;> simp [SSID.start, h]
  · by_cases h : s.running = true <;> simp [SSID.stop, h]
  · rfl

/-- Concrete instantiation of the start/stop no-op facts: a running SSID is
unchanged by `start`, a stopped SSID is unchanged by `stop`. -/
theorem c7_start_stop_idempotent_witness :
    ({ running := true, threadsSpawned := 1, joins := 0, worldDofs := 3,
       initialPosEstimator := fun _ _ => [] } : SSID).start
        = { running := true, threadsSpawned := 1, joins := 0, worldDofs := 3,
            initialPosEstimator := fun _ _ => [] }
      ∧ ({ running := false, threadsSpawned := 0, joins := 0, worldDofs := 3,
           initialPosEstimator := fun _ _ => [] } : SSID).stop
          = { running := false, threadsSpawned := 0, joins := 0, worldDofs := 3,
              initialPosEstimator := fun _ _ => [] } := by
  constructor
  · exact (c7_start_stop_idempotent
      { running := true, threadsSpawned := 1, joins := 0, worldDofs := 3,
        initialPosEstimator := fun _ _ => [] } 0).1 rfl
  · exact (c7_start_stop_idempotent
      { running := false, threadsSpawned := 0, joins := 0, worldDofs := 3,
        initialPosEstimator := fun _ _ => [] } 0).2.1 rfl

/-- Claim C10: on a freshly constructed SSID (before any
`setInitialPosEstimator` call), every inference cycle sets the problem's
start position to the zero vector of length `world->getNumDofs()`,
whatever sensor-history matrix and timestamp reach the estimator. -/
theorem c10_default_start_pos_zero (dofs : ℕ)
    (forceHistory sensorHistory : List (List ℚ)) (startTime : ℤ) :
    ((SSID.construct dofs).runInference forceHistory sensorHistory
        startTime).startPos = List.replicate dofs 0
      ∧ ((SSID.construct dofs).runInference forceHistory sensorHistory
          startTime).startPos.length = dofs := by
  constructor
  · rfl
  · simp [SSID.runInference, SSID.construct]

/-- Claim C1 describes the intended behaviour; the code deviates from it.
With two groups whose bounce-diagonal vectors have lengths 2 and 1, the
size loop allocates `2 × 2 = 4` entries (it reads group `[0]`'s length in
every iteration), so `assembleVector` returns a 4-entry vector with a
stray trailing zero, while the concatenation of the group vectors has
length `2 + 1 = 3`. -/
theorem c1_assembleVector_size_bug :
    assembleVectorReal [cggmExampleA, cggmExampleB]
        VectorToAssemble.BOUNCE_DIAGONALS = some [1, 2, 3, 0]
      ∧ specAssembledConcat [cggmExampleA, cggmExampleB]
          VectorToAssemble.BOUNCE_DIAGONALS = [1, 2, 3]
      ∧ ¬ assembleVectorReal [cggmExampleA, cggmExampleB]
            VectorToAssemble.BOUNCE_DIAGONALS
          = some (specAssembledConcat [cggmExampleA, cggmExampleB]
              VectorToAssemble.BOUNCE_DIAGONALS) := by
  refine ⟨rfl, rfl, ?_⟩
  intro h
  simp only [assembleVectorReal, specAssembledConcat] at h
  exact absurd h (by decide)

/-- Claim C8: when the real-valued (`VectorXd`) dispatch is only invoked
with the three real-valued kinds, its assertion-failure branch is
unreachable (the dispatch always succeeds); and the integer (`VectorXi`)
dispatch succeeds exactly on `CONTACT_CONSTRAINT_MAPPINGS`. -/
theorem c8_vector_dispatch (matrices : ConstrainedGroupGradientMatrices)
    (whichVector : VectorToAssemble) :
    (whichVector = VectorToAssemble.BOUNCE_DIAGONALS
        ∨ whichVector = VectorToAssemble.RESTITUTION_DIAGONALS
        ∨ whichVector = VectorToAssemble.CONTACT_CONSTRAINT_IMPULSES →
      (getVectorToAssembleReal matrices whichVector).isSome = true)
      ∧ ((getVectorToAssembleInt matrices whichVector).isSome = true
          ↔ whichVector = VectorToAssemble.CONTACT_CONSTRAINT_MAPPINGS) := by
  cases whichVector <;>
    simp [getVectorToAssembleReal, getVectorToAssembleInt]

/-- Concrete instantiation of the dispatch facts: bounce diagonals go
through the real-valued dispatch, mappings through the integer one. -/
theorem c8_vector_dispatch_witness :
    (getVectorToAssembleReal cggmExampleA
        VectorToAssemble.BOUNCE_DIAGONALS).isSome = true
      ∧ (getVectorToAssembleInt cggmExampleA
          VectorToAssemble.CONTACT_CONSTRAINT_MAPPINGS).isSome = true := by
  constructor
  · exact (c8_vector_dispatch cggmExampleA
      VectorToAssemble.BOUNCE_DIAGONALS).1 (Or.inl rfl)
  · exact (c8_vector_dispatch cggmExampleA
      VectorToAssemble.CONTACT_CONSTRAINT_MAPPINGS).2.mpr rfl

/-- A matrix product over an empty middle index type is the zero matrix. -/
theorem matMul_eq_zero_of_middle_zero {n m k : ℕ}
    (A : Matrix (Fin n) (Fin m) ℚ) (B : Matrix (Fin m) (Fin k) ℚ)
    (h : m = 0) : A * B = 0 := by
  subst h
  ext i j
  rw [Matrix.mul_apply]
  simp

/-- If any of the three dimensions of the upper-bound product is zero, the
`A_ub * E` contribution is invisible: `A_c + A_ub * E = A_c`. -/
theorem addUpperBoundTerm_eq (s : BackpropSnapshot)
    (h : s.numDOFs = 0 ∨ s.numUpperBound = 0 ∨ s.numClamping = 0) :
    s.clampingConstraintMatrix
        + s.upperBoundConstraintMatrix * s.upperBoundMappingMatrix
      = s.clampingConstraintMatrix := by
  rcases h with h | h | h
  · have hrows : IsEmpty (Fin s.numDOFs) := by
      rw [h]; exact Fin.isEmpty
    ext i j
    exact (hrows.false i).elim
  · rw [matMul_eq_zero_of_middle_zero _ _ h, add_zero]
  · have hcols : IsEmpty (Fin s.numClamping) := by
      rw [h]; exact Fin.isEmpty
    ext i j
    exact (hcols.false j).elim

/-- With no clamping columns, the `A_c * P_c` correction vanishes and the
force-velocity Jacobian (in its dropped-term branch) is `h·M⁻¹`. -/
theorem forceVelJacobian_of_no_constraints (ops : EigenOps)
    (s : BackpropSnapshot) (hU : s.numUpperBound = 0)
    (hC : s.numClamping = 0) :
    getForceVelJacobian ops s = s.timeStep • s.invMassMatrix := by
  unfold getForceVelJacobian
  rw [if_neg (by simp [hU])]
  rw [matMul_eq_zero_of_middle_zero s.clampingConstraintMatrix
    (getProjectionIntoClampsMatrix ops s) hC]
  simp

/-- With zero total `A_b` size, `getPosPosJacobian` takes the identity
shortcut. -/
theorem posPosJacobian_of_size_zero (ops : EigenOps) (s : BackpropSnapshot)
    (h : s.numDOFs * s.numBouncing = 0) :
    getPosPosJacobian ops s = 1 := by
  unfold getPosPosJacobian
  rw [if_pos h]

/-- Claim C3: `getForceVelJacobian()` equals
`h·M⁻¹·(I − h·(A_c + A_ub·E)·P_c·M⁻¹)` for every snapshot, and whenever the
upper-bound matrix or the mapping matrix `E` has zero entries the same
value is the dropped-term form `h·M⁻¹·(I − h·A_c·P_c·M⁻¹)`. -/
theorem c3_forceVelJacobian_formula (ops : EigenOps) (s : BackpropSnapshot) :
    getForceVelJacobian ops s
        = s.timeStep • (s.invMassMatrix
            * (1 - s.timeStep • ((s.clampingConstraintMatrix
                  + s.upperBoundConstraintMatrix * s.upperBoundMappingMatrix)
                * getProjectionIntoClampsMatrix ops s * s.invMassMatrix)))
      ∧ (s.numDOFs * s.numUpperBound = 0
          ∨ s.numUpperBound * s.numClamping = 0 →
          getForceVelJacobian ops s
            = s.timeStep • (s.invMassMatrix
                * (1 - s.timeStep • (s.clampingConstraintMatrix
                    * getProjectionIntoClampsMatrix ops s
                    * s.invMassMatrix)))) := by
  constructor
  · unfold getForceVelJacobian
    by_cases h : s.numDOFs * s.numUpperBound ≠ 0
        ∧ s.numUpperBound * s.numClamping ≠ 0
    · rw [if_pos h]
    · rw [if_neg h]
      have h3 : s.numDOFs = 0 ∨ s.numUpperBound = 0 ∨ s.numClamping = 0 := by
        rcases not_and_or.mp h with h1 | h1
        · rcases Nat.mul_eq_zero.mp (not_ne_iff.mp h1) with h2 | h2
          · exact Or.inl h2
          · exact Or.inr (Or.inl h2)
        · rcases Nat.mul_eq_zero.mp (not_ne_iff.mp h1) with h2 | h2
          · exact Or.inr (Or.inl h2)
          · exact Or.inr (Or.inr h2)
      rw [addUpperBoundTerm_eq s h3]
  · intro h
    unfold getForceVelJacobian
    rw [if_neg (by rcases h with h | h <;> simp [h])]

/-- Concrete instantiation of the force-velocity Jacobian formulas on a
one-DOF snapshot with one clamping contact and no upper-bound contacts. -/
theorem c3_forceVelJacobian_formula_witness :
    getForceVelJacobian eigenOpsExample snapshotWithClamping
        = snapshotWithClamping.timeStep • (snapshotWithClamping.invMassMatrix
            * (1 - snapshotWithClamping.timeStep
                • ((snapshotWithClamping.clampingConstraintMatrix
                      + snapshotWithClamping.upperBoundConstraintMatrix
                        * snapshotWithClamping.upperBoundMappingMatrix)
                    * getProjectionIntoClampsMatrix eigenOpsExample
                        snapshotWithClamping
                    * snapshotWithClamping.invMassMatrix)))
      ∧ getForceVelJacobian eigenOpsExample snapshotWithClamping
          = snapshotWithClamping.timeStep
              • (snapshotWithClamping.invMassMatrix
                * (1 - snapshotWithClamping.timeStep
                    • (snapshotWithClamping.clampingConstraintMatrix
                      * getProjectionIntoClampsMatrix eigenOpsExample
                          snapshotWithClamping
                      * snapshotWithClamping.invMassMatrix))) :=
  ⟨(c3_forceVelJacobian_formula eigenOpsExample snapshotWithClamping).1,
   (c3_forceVelJacobian_formula eigenOpsExample snapshotWithClamping).2
     (Or.inl rfl)⟩

/-- Claim C4: `getProjectionIntoClampsMatrix()` returns
`(1/h)·pinv(F)·diag(bounceDiagonals)·A_cᵗ` with
`F = A_cᵗ·(V_c + V_ub·E)` built from the massed clamping and massed
upper-bound matrices; the pseudo-inverse is a total operation (modelled by
the abstract `ops.pinv`, standing for Eigen's complete orthogonal
decomposition, defined also on singular, non-square or empty inputs). -/
theorem c4_projection_formula (ops : EigenOps) (s : BackpropSnapshot) :
    getProjectionIntoClampsMatrix ops s
      = (1 / s.timeStep) •
          (ops.pinv s.numClamping s.numClamping
              (s.clampingConstraintMatrix.transpose
                * (s.massedClampingConstraintMatrix
                    + s.massedUpperBoundConstraintMatrix
                      * s.upperBoundMappingMatrix))
            * Matrix.diagonal s.bounceDiagonals
            * s.clampingConstraintMatrix.transpose) := by
  unfold getProjectionIntoClampsMatrix
  dsimp only
  rw [Matrix.smul_mul, Matrix.smul_mul]

/-- Claim C5: when the assembled bouncing constraint matrix has zero
columns, `getPosPosJacobian()` is the identity, independently of the
least-squares solver (which is quantified over and never consulted). -/
theorem c5_posPos_identity_no_bounce (ops : EigenOps) (s : BackpropSnapshot)
    (hB : s.numBouncing = 0) : getPosPosJacobian ops s = 1 :=
  posPosJacobian_of_size_zero ops s (by rw [hB, Nat.mul_zero])

/-- Concrete instantiation of the no-bounce shortcut on a snapshot with one
clamping contact and no bouncing contacts. -/
theorem c5_posPos_identity_no_bounce_witness :
    getPosPosJacobian eigenOpsExample snapshotWithClamping = 1 :=
  c5_posPos_identity_no_bounce eigenOpsExample snapshotWithClamping rfl

/-- Claim C6: with zero active constraint groups (all clamping, upper-bound
and bouncing column counts zero), `getForceVelJacobian()` is exactly
`h·M⁻¹` and `getPosPosJacobian()` is the identity. -/
theorem c6_zero_constraint_groups (ops : EigenOps) (s : BackpropSnapshot)
    (hC : s.numClamping = 0) (hU : s.numUpperBound = 0)
    (hB : s.numBouncing = 0) :
    getForceVelJacobian ops s = s.timeStep • s.invMassMatrix
      ∧ getPosPosJacobian ops s = 1 :=
  ⟨forceVelJacobian_of_no_constraints ops s hU hC,
   posPosJacobian_of_size_zero ops s (by rw [hB, Nat.mul_zero])⟩

/-- Concrete instantiation of the contact-free snapshot facts on a one-DOF
snapshot with all constraint counts zero. -/
theorem c6_zero_constraint_groups_witness :
    getForceVelJacobian eigenOpsExample snapshotNoConstraints
        = snapshotNoConstraints.timeStep • snapshotNoConstraints.invMassMatrix
      ∧ getPosPosJacobian eigenOpsExample snapshotNoConstraints = 1 :=
  c6_zero_constraint_groups eigenOpsExample snapshotNoConstraints rfl rfl rfl

/-- Diagonal-block lemma for the block-placement loop: inside skeleton
`i`'s square block (both indices within the block at that skeleton's
offset) the world matrix reproduces that skeleton's own entries. -/
theorem assembleBlockDiagonal_diag (f : SkeletonBlock → ℕ → ℕ → ℚ)
    (skels : List SkeletonBlock) :
    ∀ (i : ℕ) (si : SkeletonBlock), skels[i]? = some si →
      ∀ a b : ℕ, a < si.numDofs → b < si.numDofs →
      assembleBlockDiagonal f skels (skeletonOffset skels i + a)
          (skeletonOffset skels i + b) = f si a b := by
  induction skels with
  | nil =>
    intro i si hi
    simp at hi
  | cons s rest ih =>
    intro i si hi a b ha hb
    cases i with
    | zero =>
      simp only [List.getElem?_cons_zero, Option.some.injEq] at hi
      subst hi
      simp [skeletonOffset, assembleBlockDiagonal, ha, hb]
    | succ j =>
      simp only [List.getElem?_cons_succ] at hi
      show assembleBlockDiagonal f (s :: rest)
        (s.numDofs + skeletonOffset rest j + a)
        (s.numDofs + skeletonOffset rest j + b) = f si a b
      simp only [assembleBlockDiagonal]
      rw [if_neg (by omega), if_neg (by omega)]
      have h1 : s.numDofs + skeletonOffset rest j + a - s.numDofs
          = skeletonOffset rest j + a := by omega
      have h2 : s.numDofs + skeletonOffset rest j + b - s.numDofs
          = skeletonOffset rest j + b := by omega
      rw [h1, h2]
      exact ih j si hi a b ha hb

/-- Off-diagonal lemma for the block-placement loop: an entry whose row
lies in skeleton `i`'s block and whose column lies in skeleton `j`'s block
with `i < j` is zero, in both orientations. -/
theorem assembleBlockDiagonal_offDiag (f : SkeletonBlock → ℕ → ℕ → ℚ)
    (skels : List SkeletonBlock) :
    ∀ (i j : ℕ) (si sj : SkeletonBlock), i < j →
      skels[i]? = some si → skels[j]? = some sj →
      ∀ a b : ℕ, a < si.numDofs → b < sj.numDofs →
      assembleBlockDiagonal f skels (skeletonOffset skels i + a)
          (skeletonOffset skels j + b) = 0
        ∧ assembleBlockDiagonal f skels (skeletonOffset skels j + b)
            (skeletonOffset skels i + a) = 0 := by
  induction skels with
  | nil =>
    intro i j si sj _ hi
    simp at hi
  | cons s rest ih =>
    intro i j si sj hij hi hj a b ha hb
    cases i with
    | zero =>
      simp only [List.getElem?_cons_zero, Option.some.injEq] at hi
      subst hi
      obtain ⟨k, rfl⟩ : ∃ k, j = k + 1 := ⟨j - 1, by omega⟩
      simp only [List.getElem?_cons_succ] at hj
      constructor
      · show assembleBlockDiagonal f (s :: rest) (0 + a)
          (s.numDofs + skeletonOffset rest k + b) = 0
        simp only [assembleBlockDiagonal]
        rw [if_pos (by omega), if_neg (by omega)]
      · show assembleBlockDiagonal f (s :: rest)
          (s.numDofs + skeletonOffset rest k + b) (0 + a) = 0
        simp only [assembleBlockDiagonal]
        rw [if_neg (by omega), if_pos (by omega)]
    | succ m =>
      simp only [List.getElem?_cons_succ] at hi
      obtain ⟨k, rfl⟩ : ∃ k, j = k + 1 := ⟨j - 1, by omega⟩
      simp only [List.getElem?_cons_succ] at hj
      have hmk : m < k := by omega
      constructor
      · show assembleBlockDiagonal f (s :: rest)
          (s.numDofs + skeletonOffset rest m + a)
          (s.numDofs + skeletonOffset rest k + b) = 0
        simp only [assembleBlockDiagonal]
        rw [if_neg (by omega), if_neg (by omega)]
        have h1 : s.numDofs + skeletonOffset rest m + a - s.numDofs
            = skeletonOffset rest m + a := by omega
        have h2 : s.numDofs + skeletonOffset rest k + b - s.numDofs
            = skeletonOffset rest k + b := by omega
        rw [h1, h2]
        exact (ih m k si sj hmk hi hj a b ha hb).1
      · show assembleBlockDiagonal f (s :: rest)
          (s.numDofs + skeletonOffset rest k + b)
          (s.numDofs + skeletonOffset rest m + a) = 0
        simp only [assembleBlockDiagonal]
        rw [if_neg (by omega), if_neg (by omega)]
        have h1 : s.numDofs + skeletonOffset rest k + b - s.numDofs
            = skeletonOffset rest k + b := by omega
        have h2 : s.numDofs + skeletonOffset rest m + a - s.numDofs
            = skeletonOffset rest m + a := by omega
        rw [h1, h2]
        exact (ih m k si sj hmk hi hj a b ha hb).2

/-- Claim C9: `getMassMatrix()` and `getInvMassMatrix()` are block-diagonal
world matrices: within skeleton `i`'s square block at its world DOF offset
they reproduce that skeleton's own (inverse) mass matrix, and every entry
coupling the DOFs of two different skeletons is zero. -/
theorem c9_mass_matrices_block_diagonal (skels : List SkeletonBlock)
    (i j a b : ℕ) (si sj : SkeletonBlock)
    (hi : skels[i]? = some si) (hj : skels[j]? = some sj)
    (ha : a < si.numDofs) (hb : b < sj.numDofs) :
    (i = j →
      worldMassMatrix skels (skeletonOffset skels i + a)
          (skeletonOffset skels j + b) = si.massMatrix a b
        ∧ worldInvMassMatrix skels (skeletonOffset skels i + a)
            (skeletonOffset skels j + b) = si.invMassMatrix a b)
      ∧ (i ≠ j →
        worldMassMatrix skels (skeletonOffset skels i + a)
            (skeletonOffset skels j + b) = 0
          ∧ worldInvMassMatrix skels (skeletonOffset skels i + a)
              (skeletonOffset skels j + b) = 0) := by
  constructor
  · intro hEq
    subst hEq
    have hss : si = sj := by
      rw [hi] at hj
      exact Option.some.inj hj
    subst hss
    exact ⟨assembleBlockDiagonal_diag _ skels i si hi a b ha hb,
      assembleBlockDiagonal_diag _ skels i si hi a b ha hb⟩
  · intro hNe
    rcases lt_or_gt_of_ne hNe with hlt | hgt
    · exact ⟨(assembleBlockDiagonal_offDiag _ skels i j si sj hlt hi hj
          a b ha hb).1,
        (assembleBlockDiagonal_offDiag _ skels i j si sj hlt hi hj
          a b ha hb).1⟩
    · exact ⟨(assembleBlockDiagonal_offDiag _ skels j i sj si hgt hj hi
          b a hb ha).2,
        (assembleBlockDiagonal_offDiag _ skels j i sj si hgt hj hi
          b a hb ha).2⟩

/-- Concrete instantiation of the block-diagonal facts on a two-skeleton
world (one DOF and two DOFs): a diagonal-block entry of the second
skeleton, and a coupling entry between the two skeletons. -/
theorem c9_mass_matrices_block_diagonal_witness :
    worldMassMatrix [skeletonBlockExampleA, skeletonBlockExampleB]
        (skeletonOffset [skeletonBlockExampleA, skeletonBlockExampleB] 1 + 0)
        (skeletonOffset [skeletonBlockExampleA, skeletonBlockExampleB] 1 + 1)
      = skeletonBlockExampleB.massMatrix 0 1
      ∧ worldInvMassMatrix [skeletonBlockExampleA, skeletonBlockExampleB]
          (skeletonOffset [skeletonBlockExampleA, skeletonBlockExampleB] 0 + 0)
          (skeletonOffset [skeletonBlockExampleA, skeletonBlockExampleB] 1 + 1)
        = 0 := by
  constructor
  · exact ((c9_mass_matrices_block_diagonal
      [skeletonBlockExampleA, skeletonBlockExampleB] 1 1 0 1
      skeletonBlockExampleB skeletonBlockExampleB rfl rfl
      (by decide) (by decide)).1 rfl).1
  · exact ((c9_mass_matrices_block_diagonal
      [skeletonBlockExampleA, skeletonBlockExampleB] 0 1 0 1
      skeletonBlockExampleA skeletonBlockExampleB rfl rfl
      (by decide) (by decide)).2 (by decide)).2
